import Mathlib

/-!
Verification of the facebase access-decision engine.

This file shallowly embeds the decision core of the repository:

* `useFaceRecognitionEngine` (src/unnamed/part_024, the recognition engine):
  per-frame matching/classification, the security aggregation rules, the
  persistence (vote) buffer, the action gate with cooldowns, and the
  disappearance reset.
* `handleAccessDecision` (src/unnamed/part_012): the MQTT payload built for
  the access channel.
* `AccessControlService.notify` (src/unnamed/part_024, first section): the
  server-side MQTT access payload.
* `MqttClient.publish` (src/src/components/LoadingSpinner.tsx, second
  section, the lib/mqtt module): publish-while-disconnected behaviour.

Machine reals (face-descriptor distances, produced externally by
`faceapi.euclideanDistance`) are modelled as rationals; a detection is
represented by its distance function to enrolled rows, since the engine only
ever consumes those distances.  Timestamps (`Date.now()`) are naturals in
milliseconds; the TS comparisons `now - t >= C` with `C > 0` agree with
truncated natural subtraction, because a negative difference fails the
comparison exactly as a truncated-to-zero one does.

The UI-only parts of the loop (overlay state, `setDetectedFaces`, the
`UI_PERSISTENCE_MS` flicker hold, auto-pause which merely stops frames from
being processed, and the `faces` array attached to emitted events) are not
modelled: the claims quantify over processed frames and emitted commands.
-/

namespace Facebase

/-- `users` row fields consumed by the engine (`user` relation of
`RecognitionFaceRow` in src/src/lib/recognitionData.ts). -/
structure UserRecord where
  id : String
  name : Option String
  is_banned : Bool
deriving DecidableEq

/-- `RecognitionFaceRow` (src/src/lib/recognitionData.ts) without the raw
embedding vector: the engine only consumes the embedding through the
externally computed distance of a detection, see `Detection`. -/
structure RecognitionFaceRow where
  id : String
  user_id : String
  user : Option UserRecord
deriving DecidableEq

/-- A detected face, represented by the distance
`faceapi.euclideanDistance(detection.descriptor, known.descriptor)` it has
to each enrolled row. -/
abbrev Detection := RecognitionFaceRow → ℚ

-- Configuration constants (src/unnamed/part_024, lines 156-162).
def ACCEPTED_COOLDOWN_MS : ℕ := 10000
def UNKNOWN_COOLDOWN_MS : ℕ := 6000
def DISAPPEAR_RESET_MS : ℕ := 2000
def MATCH_THRESHOLD : ℚ := mkRat 45 100
def MIN_PERSISTENCE_FRAMES : ℕ := 3

/-- `face.user?.id ?? face.user_id` as used for cooldown keys. -/
def rowUserId (r : RecognitionFaceRow) : String :=
  match r.user with
  | some u => u.id
  | none => r.user_id

/-- `bestMatch?.face.user?.is_banned ?? false`. -/
def isBannedRow (r : RecognitionFaceRow) : Bool :=
  match r.user with
  | some u => u.is_banned
  | none => false

/-- One iteration of the matcher loop of `processFrame` (lines 310-320): a
candidate qualifies when its distance is strictly below `MATCH_THRESHOLD`,
and it replaces the running best only when strictly closer (so on ties the
earlier row is kept). -/
def bestMatchStep (d : Detection) (best : Option (RecognitionFaceRow × ℚ))
    (k : RecognitionFaceRow) : Option (RecognitionFaceRow × ℚ) :=
  if d k < MATCH_THRESHOLD then
    match best with
    | none => some (k, d k)
    | some (_, bd) => if d k < bd then some (k, d k) else best
  else best

/-- The matcher loop of `processFrame` (lines 307-320): scan the enrolled
rows in list order, folding `bestMatchStep`. -/
def bestMatch (knowns : List RecognitionFaceRow) (d : Detection) :
    Option (RecognitionFaceRow × ℚ) :=
  knowns.foldl (bestMatchStep d) none

/-- One entry of `currentFaces` (lines 336-346), restricted to the fields
the decision logic reads. -/
structure DetectedFace where
  mtch : Option (RecognitionFaceRow × ℚ)
  isBanned : Bool
deriving DecidableEq

/-- The classification pass of `processFrame` (lines 307-347). -/
def classify (knowns : List RecognitionFaceRow) (dets : List Detection) :
    List DetectedFace :=
  dets.map (fun d =>
    let bm := bestMatch knowns d
    { mtch := bm
      isBanned :=
        match bm with
        | some (r, _) => isBannedRow r
        | none => false })

/-- `unlockCandidates` (lines 305, 325-330): best matches of known,
non-banned faces, in detection order. -/
def unlockCandidatesOf (knowns : List RecognitionFaceRow)
    (dets : List Detection) : List (RecognitionFaceRow × ℚ) :=
  dets.filterMap (fun d =>
    match bestMatch knowns d with
    | some (r, dist) => if isBannedRow r then none else some (r, dist)
    | none => none)

/-- `unlockCandidates.sort((a, b) => a.distance - b.distance)` followed by
taking index 0 (lines 381-382): the minimum-distance element; the sort is
stable, so ties go to the earlier candidate.  Modelled by a fold that only
replaces on a strictly smaller distance. -/
def minByDistance : List (RecognitionFaceRow × ℚ) →
    Option (RecognitionFaceRow × ℚ)
  | [] => none
  | x :: xs => some (xs.foldl (fun b y => if y.2 < b.2 then y else b) x)

/-- `bestAny` of the all-banned multi-face branch (lines 396-402). -/
def bestAnyMatch (faces : List DetectedFace) :
    Option (RecognitionFaceRow × ℚ) :=
  faces.foldl
    (fun b f =>
      match f.mtch with
      | some m =>
        match b with
        | none => some m
        | some bm => if m.2 < bm.2 then some m else b
      | none => b)
    none

/-- `proposedDecision` values. -/
inductive DType
  | unlock
  | deny
  | none
deriving DecidableEq

/-- `decisionBufferRef.current` (lines 216-221).  The initial value
`{ type: "none", count: 0 }` leaves candidate and reason unset, modelled as
`none` and `""`. -/
structure DecisionBuffer where
  type : DType
  count : ℕ
  candidateUser : Option RecognitionFaceRow
  reason : String
deriving DecidableEq

/-- The per-frame proposal (`proposedDecision`, `decisionCandidate`,
`decisionReason`, lines 352-354). -/
structure Proposal where
  decision : DType
  candidate : Option RecognitionFaceRow
  reason : String
deriving DecidableEq

def noneProposal : Proposal := ⟨DType.none, Option.none, ""⟩

/-- The mutable refs of the engine that the decision logic reads and
writes.  `lastUnlockTime` models the `Map` with `get(id) || 0` as a total
function defaulting to `0`. -/
structure EngineState where
  lastUnlockTime : String → ℕ
  lastUnknownRejectTime : ℕ
  lastFacesSeenTime : ℕ
  decisionBuffer : DecisionBuffer

/-- The security aggregation rules (lines 351-433), producing the frame's
proposal from the classification and the cooldown registry. -/
def propose (knowns : List RecognitionFaceRow) (st : EngineState) (now : ℕ)
    (dets : List Detection) : Proposal :=
  let faces := classify knowns dets
  let hasKnown := faces.any (fun f => f.mtch.isSome)
  let hasUnknown := faces.any (fun f => f.mtch.isNone)
  let allKnown := faces.all (fun f => f.mtch.isSome)
  let allUnknown := faces.all (fun f => f.mtch.isNone)
  let unlockCandidates := unlockCandidatesOf knowns dets
  if hasKnown ∧ hasUnknown then
    -- 1. Mixed known + unknown -> deny (behind the unknown cooldown)
    if UNKNOWN_COOLDOWN_MS ≤ now - st.lastUnknownRejectTime then
      ⟨DType.deny, Option.none, "Mixed group detected (Security Alert)"⟩
    else noneProposal
  else if allUnknown ∧ 1 < dets.length then
    -- 2. Multiple unknown -> deny
    if UNKNOWN_COOLDOWN_MS ≤ now - st.lastUnknownRejectTime then
      ⟨DType.deny, Option.none, "Multiple unknown faces"⟩
    else noneProposal
  else if allUnknown ∧ dets.length = 1 then
    -- 3. Single unknown -> deny
    if UNKNOWN_COOLDOWN_MS ≤ now - st.lastUnknownRejectTime then
      ⟨DType.deny, Option.none, "Unknown face detected"⟩
    else noneProposal
  else if allKnown ∧ 1 < dets.length then
    -- 4. Multiple all known -> unlock at the global best, or all banned
    match minByDistance unlockCandidates with
    | some best =>
      if ACCEPTED_COOLDOWN_MS ≤ now - st.lastUnlockTime (rowUserId best.1) then
        ⟨DType.unlock, some best.1, "Recognized (Multi-face)"⟩
      else noneProposal
    | none =>
      ⟨DType.deny, (bestAnyMatch faces).map (fun m => m.1),
        "Access denied (Banned)"⟩
  else if allKnown ∧ dets.length = 1 then
    -- 5. Single recognized -> unlock, or banned
    match unlockCandidates.head? with
    | some best =>
      if ACCEPTED_COOLDOWN_MS ≤ now - st.lastUnlockTime (rowUserId best.1) then
        ⟨DType.unlock, some best.1, "Face recognized"⟩
      else noneProposal
    | none =>
      ⟨DType.deny, (faces.head?.bind (fun f => f.mtch)).map (fun m => m.1),
        "Access denied (Banned)"⟩
  else noneProposal

/-- The persistence buffer update (lines 435-451). -/
def vote (buf : DecisionBuffer) (p : Proposal) : DecisionBuffer :=
  if p.decision = buf.type ∧ p.decision ≠ DType.none then
    { buf with
        count := buf.count + 1
        candidateUser :=
          if p.decision = DType.unlock then p.candidate else buf.candidateUser
        reason := p.reason }
  else
    ⟨p.decision, 1, p.candidate, p.reason⟩

/-- The kind of an emitted `AccessDecisionEvent`. -/
inductive EventType
  | unlock
  | deny
deriving DecidableEq

/-- `AccessDecisionEvent` (lines 178-184) without the UI `faces` payload. -/
structure AccessDecisionEvent where
  etype : EventType
  reason : String
  timestamp : ℕ
  matchedUser : Option RecognitionFaceRow
deriving DecidableEq

/-- The action gate (lines 453-488): act once the voted buffer reached
`MIN_PERSISTENCE_FRAMES`, re-checking the relevant cooldown; on emission
record the timestamp and reset `count` to 0; on a failed cooldown keep the
buffer untouched.  `st` is the engine state with `lastFacesSeenTime`
already refreshed; `buf` is the buffer after this frame's vote. -/
def executeDecision (st : EngineState) (now : ℕ) (buf : DecisionBuffer) :
    EngineState × Option AccessDecisionEvent :=
  if MIN_PERSISTENCE_FRAMES ≤ buf.count then
    match buf.type with
    | DType.unlock =>
      match buf.candidateUser with
      | some user =>
        if ACCEPTED_COOLDOWN_MS ≤ now - st.lastUnlockTime (rowUserId user) then
          ({ st with
              decisionBuffer := { buf with count := 0 }
              lastUnlockTime := fun s =>
                if s = rowUserId user then now else st.lastUnlockTime s },
            some ⟨EventType.unlock,
              (if buf.reason = "" then "Recognized" else buf.reason), now,
              some user⟩)
        else ({ st with decisionBuffer := buf }, Option.none)
      | Option.none => ({ st with decisionBuffer := buf }, Option.none)
    | DType.deny =>
      if UNKNOWN_COOLDOWN_MS ≤ now - st.lastUnknownRejectTime then
        ({ st with
            decisionBuffer := { buf with count := 0 }
            lastUnknownRejectTime := now },
          some ⟨EventType.deny,
            (if buf.reason = "" then "Access denied" else buf.reason), now,
            buf.candidateUser⟩)
      else ({ st with decisionBuffer := buf }, Option.none)
    | DType.none => ({ st with decisionBuffer := buf }, Option.none)
  else ({ st with decisionBuffer := buf }, Option.none)

/-- One invocation of the frame handler `processFrame` (lines 242-498),
restricted to its decision-relevant effects.  An empty detection list runs
the disappearance-reset logic (lines 277-291), which clears the buffer only
when this faces-absent frame is processed more than `DISAPPEAR_RESET_MS`
after faces were last seen, and never touches the cooldown registry. -/
def processFrame (knowns : List RecognitionFaceRow) (st : EngineState)
    (now : ℕ) (dets : List Detection) :
    EngineState × Option AccessDecisionEvent :=
  if dets.isEmpty then
    if DISAPPEAR_RESET_MS < now - st.lastFacesSeenTime then
      ({ st with decisionBuffer := ⟨DType.none, 0, Option.none, ""⟩ },
        Option.none)
    else (st, Option.none)
  else
    let buf := vote st.decisionBuffer (propose knowns st now dets)
    executeDecision { st with lastFacesSeenTime := now } now buf

/-- One frame of input to the engine: the `Date.now()` timestamp and the
detections of that frame. -/
structure Frame where
  now : ℕ
  dets : List Detection

/-- Run the engine over a sequence of processed frames, collecting the
emitted access decisions in order. -/
def runFrames (knowns : List RecognitionFaceRow) :
    EngineState → List Frame → EngineState × List AccessDecisionEvent
  | st, [] => (st, [])
  | st, f :: fs =>
    let r := processFrame knowns st f.now f.dets
    let rest := runFrames knowns r.1 fs
    (rest.1, r.2.toList ++ rest.2)

def runEvents (knowns : List RecognitionFaceRow) (st : EngineState)
    (fs : List Frame) : List AccessDecisionEvent :=
  (runFrames knowns st fs).2

/-- The engine's mount-time state: empty cooldown map, zero unknown-reject
timestamp, `lastFacesSeenTime` set to the mount time `t0`. -/
def initState (t0 : ℕ) : EngineState :=
  ⟨fun _ => 0, 0, t0, ⟨DType.none, 0, Option.none, ""⟩⟩

/-- The timestamp of `e` when `e` is an unlock credited to identity
`uid`. -/
def unlockStamp (uid : String) (e : AccessDecisionEvent) : Option ℕ :=
  match e.etype, e.matchedUser with
  | EventType.unlock, some u =>
    if rowUserId u = uid then some e.timestamp else Option.none
  | _, _ => Option.none

/-- Timestamps of emitted unlock commands credited to identity `uid`. -/
def unlockTimesFor (uid : String) (evs : List AccessDecisionEvent) :
    List ℕ :=
  evs.filterMap (unlockStamp uid)

/-- The timestamp of `e` when `e` is a deny, of any reason. -/
def denyStamp (e : AccessDecisionEvent) : Option ℕ :=
  if e.etype = EventType.deny then some e.timestamp else Option.none

/-- Timestamps of emitted deny commands, of any reason. -/
def denyTimes (evs : List AccessDecisionEvent) : List ℕ :=
  evs.filterMap denyStamp

/-- The buffer after this frame's vote (the value inspected by the action
gate). -/
def votedBuffer (knowns : List RecognitionFaceRow) (st : EngineState)
    (now : ℕ) (dets : List Detection) : DecisionBuffer :=
  vote st.decisionBuffer (propose knowns st now dets)

/-- Reference selection rule equivalent to the matcher loop: the qualifying
row of minimum distance, ties broken by earliest position in the enrolled
list.  Used to characterize `bestMatch`. -/
def firstMinMatch (d : Detection) : List RecognitionFaceRow →
    Option (RecognitionFaceRow × ℚ)
  | [] => Option.none
  | k :: rest =>
    if d k < MATCH_THRESHOLD then
      match firstMinMatch d rest with
      | some (r, ds) =>
        if ds < d k then some (r, ds) else some (k, d k)
      | Option.none => some (k, d k)
    else firstMinMatch d rest

/-! ### The access channel payloads -/

/-- `VisitStatus` (src/src/lib/database.types.ts). -/
inductive VisitStatus
  | accepted
  | rejected
deriving DecidableEq

/-- A wire message on the access channel, restricted to the fields the
claims mention.  `banned = Option.none` models the `banned` key being
absent from the published JSON object. -/
structure AccessMessage where
  result : String
  banned : Option Bool
deriving DecidableEq

/-- The MQTT message built by `handleAccessDecision`
(src/unnamed/part_012, lines 127-130):
`{ result: isUnlock ? "unlocked" : "denied", banned: isBanned }` with
`isBanned = primaryUser?.user?.is_banned ?? false` and
`primaryUser = matchedUser ?? null`. -/
def handleAccessMessage (etype : EventType)
    (matchedUser : Option RecognitionFaceRow) : AccessMessage :=
  { result := if etype = EventType.unlock then "unlocked" else "denied"
    banned := some
      (match matchedUser with
      | some r => isBannedRow r
      | Option.none => false) }

/-- The fields of `NotifyPayload` (src/unnamed/part_024, lines 9-17) that
reach the published message's claim-relevant keys. -/
structure NotifyPayload where
  status : Option VisitStatus
  banned : Option Bool
deriving DecidableEq

/-- The message of the server-side `AccessControlService.notify`
(src/unnamed/part_024, lines 30-41): `result` is `"allowed"` when
`payload.status === "accepted"` and `"denied"` otherwise, and the spread
`...payload` contributes a `banned` key only when the caller supplied
one. -/
def notifyMessage (p : NotifyPayload) : AccessMessage :=
  { result :=
      if p.status = some VisitStatus.accepted then "allowed" else "denied"
    banned := p.banned }

/-- Connection-relevant state of the singleton `MqttClient` (lib/mqtt, in
src/src/components/LoadingSpinner.tsx second section). -/
structure MqttClientState where
  connected : Bool
deriving DecidableEq

namespace MqttClient

/-- `MqttClient.publish` (lib/mqtt, lines 89-95).  The result records the
client state after the call, the messages handed to the transport, and the
error surfaced to the caller.  When connected the message is sent; when
disconnected only `console.warn` runs: nothing is sent, the client stores
nothing (its state is unchanged, so no queue exists), and the method —
which returns `void` and never throws — surfaces no error either way. -/
def publish (st : MqttClientState) (topic message : String) :
    MqttClientState × List (String × String) × Option String :=
  if st.connected then (st, [(topic, message)], Option.none)
  else (st, [], Option.none)

end MqttClient

/-! ### Concrete fixtures for witnesses and counterexamples -/

def aliceUser : UserRecord := ⟨"u1", some "Alice", false⟩

def aliceRow : RecognitionFaceRow := ⟨"f1", "u1", some aliceUser⟩

def bobUser : UserRecord := ⟨"u2", some "Bob", true⟩

def bobRow : RecognitionFaceRow := ⟨"f2", "u2", some bobUser⟩

/-- A detection at distance 0.2 from Alice's row, far from others. -/
def dAlice : Detection := fun r => if r.id = "f1" then mkRat 1 5 else mkRat 9 10

/-- A detection at distance 0.3 from Bob's (banned) row, far from others. -/
def dBob : Detection := fun r => if r.id = "f2" then mkRat 3 10 else mkRat 9 10

/-- A detection far from every enrolled row. -/
def dUnknown : Detection := fun _ => mkRat 9 10

def carolUser : UserRecord := ⟨"u3", some "Carol", false⟩

def carolRow : RecognitionFaceRow := ⟨"f3", "u3", some carolUser⟩

/-- A detection at distance 0.35 from Carol's row, far from others. -/
def dCarol : Detection := fun r => if r.id = "f3" then mkRat 7 20 else mkRat 9 10

/-- Enrolled row with id "b", listed before `kaRow`. -/
def kbRow : RecognitionFaceRow := ⟨"b", "ub", Option.none⟩

/-- Enrolled row with id "a", listed after `kbRow`. -/
def kaRow : RecognitionFaceRow := ⟨"a", "ua", Option.none⟩

/-- A detection at the same qualifying distance 0.2 from every row. -/
def dTie : Detection := fun _ => mkRat 1 5

/-! ### Basic lemmas about the vote buffer -/

theorem vote_type (buf : DecisionBuffer) (p : Proposal) :
    (vote buf p).type = p.decision := by
  unfold vote
  split
  · next h => exact h.1.symm
  · rfl

theorem vote_count_le (buf : DecisionBuffer) (p : Proposal) :
    (vote buf p).count ≤ buf.count + 1 := by
  unfold vote
  split
  · exact Nat.le_refl _
  · show 1 ≤ buf.count + 1
    omega

theorem vote_count_same (buf : DecisionBuffer) (p : Proposal)
    (h1 : p.decision = buf.type) (h2 : p.decision ≠ DType.none) :
    (vote buf p).count = buf.count + 1 := by
  unfold vote
  rw [if_pos ⟨h1, h2⟩]

theorem vote_count_changed (buf : DecisionBuffer) (p : Proposal)
    (h : ¬(p.decision = buf.type ∧ p.decision ≠ DType.none)) :
    (vote buf p).count = 1 := by
  unfold vote
  rw [if_neg h]

theorem vote_candidate_unlock (buf : DecisionBuffer) (p : Proposal)
    (h : p.decision = DType.unlock) :
    (vote buf p).candidateUser = p.candidate := by
  unfold vote
  split
  · simp [h]
  · rfl

/-! ### Characterization of the action gate -/

/-- Complete case analysis of the action gate: an unlock is emitted, a deny
is emitted, or nothing is emitted and the voted buffer is stored as is. -/
theorem executeDecision_spec (st : EngineState) (now : ℕ)
    (buf : DecisionBuffer) :
    (MIN_PERSISTENCE_FRAMES ≤ buf.count ∧ buf.type = DType.unlock ∧
      ∃ user, buf.candidateUser = some user ∧
        ACCEPTED_COOLDOWN_MS ≤ now - st.lastUnlockTime (rowUserId user) ∧
        executeDecision st now buf =
          ({ st with
              decisionBuffer := { buf with count := 0 }
              lastUnlockTime := fun s =>
                if s = rowUserId user then now else st.lastUnlockTime s },
            some ⟨EventType.unlock,
              (if buf.reason = "" then "Recognized" else buf.reason), now,
              some user⟩)) ∨
    (MIN_PERSISTENCE_FRAMES ≤ buf.count ∧ buf.type = DType.deny ∧
      UNKNOWN_COOLDOWN_MS ≤ now - st.lastUnknownRejectTime ∧
      executeDecision st now buf =
        ({ st with
            decisionBuffer := { buf with count := 0 }
            lastUnknownRejectTime := now },
          some ⟨EventType.deny,
            (if buf.reason = "" then "Access denied" else buf.reason), now,
            buf.candidateUser⟩)) ∨
    executeDecision st now buf =
      ({ st with decisionBuffer := buf }, Option.none) := by
  by_cases h1 : MIN_PERSISTENCE_FRAMES ≤ buf.count
  · cases hbt : buf.type with
    | unlock =>
      cases hbc : buf.candidateUser with
      | some user =>
        by_cases h2 :
            ACCEPTED_COOLDOWN_MS ≤ now - st.lastUnlockTime (rowUserId user)
        · exact Or.inl ⟨h1, rfl, user, rfl,
            h2, by simp [executeDecision, h1, hbt, hbc, h2]⟩
        · exact Or.inr (Or.inr
            (by simp [executeDecision, h1, hbt, hbc, h2]))
      | none =>
        exact Or.inr (Or.inr (by simp [executeDecision, h1, hbt, hbc]))
    | deny =>
      by_cases h2 : UNKNOWN_COOLDOWN_MS ≤ now - st.lastUnknownRejectTime
      · exact Or.inr (Or.inl ⟨h1, rfl, h2,
          by simp [executeDecision, h1, hbt, h2]⟩)
      · exact Or.inr (Or.inr (by simp [executeDecision, h1, hbt, h2]))
    | none =>
      exact Or.inr (Or.inr (by simp [executeDecision, h1, hbt]))
  · exact Or.inr (Or.inr (by simp [executeDecision, h1]))

theorem exec_event_count (st : EngineState) (now : ℕ) (buf : DecisionBuffer)
    (e : AccessDecisionEvent)
    (h : (executeDecision st now buf).2 = some e) :
    MIN_PERSISTENCE_FRAMES ≤ buf.count := by
  rcases executeDecision_spec st now buf with
    ⟨h1, _, _, _, _, heq⟩ | ⟨h1, _, _, heq⟩ | heq
  · exact h1
  · exact h1
  · rw [heq] at h
    exact absurd h (by simp)

theorem exec_unlock_char (st : EngineState) (now : ℕ) (buf : DecisionBuffer)
    (e : AccessDecisionEvent)
    (h : (executeDecision st now buf).2 = some e)
    (hu : e.etype = EventType.unlock) :
    buf.type = DType.unlock ∧
    ∃ user, buf.candidateUser = some user ∧ e.matchedUser = some user ∧
      e.timestamp = now ∧
      st.lastUnlockTime (rowUserId user) + ACCEPTED_COOLDOWN_MS ≤ now ∧
      (executeDecision st now buf).1.lastUnlockTime (rowUserId user) = now := by
  rcases executeDecision_spec st now buf with
    ⟨h1, hbt, user, hbc, hcd, heq⟩ | ⟨h1, hbt, hcd, heq⟩ | heq
  · rw [heq] at h
    rw [Option.some_inj] at h
    subst h
    refine ⟨hbt, user, hbc, rfl, rfl, ?_, ?_⟩
    · have hpos : 0 < ACCEPTED_COOLDOWN_MS := by decide
      omega
    · rw [heq]
      simp
  · rw [heq] at h
    rw [Option.some_inj] at h
    subst h
    simp at hu
  · rw [heq] at h
    exact absurd h (by simp)

theorem exec_deny_char (st : EngineState) (now : ℕ) (buf : DecisionBuffer)
    (e : AccessDecisionEvent)
    (h : (executeDecision st now buf).2 = some e)
    (hd : e.etype = EventType.deny) :
    buf.type = DType.deny ∧ e.timestamp = now ∧
    e.matchedUser = buf.candidateUser ∧
    st.lastUnknownRejectTime + UNKNOWN_COOLDOWN_MS ≤ now ∧
    (executeDecision st now buf).1.lastUnknownRejectTime = now := by
  rcases executeDecision_spec st now buf with
    ⟨h1, hbt, user, hbc, hcd, heq⟩ | ⟨h1, hbt, hcd, heq⟩ | heq
  · rw [heq] at h
    rw [Option.some_inj] at h
    subst h
    simp at hd
  · rw [heq] at h
    rw [Option.some_inj] at h
    subst h
    refine ⟨hbt, rfl, rfl, ?_, ?_⟩
    · have hpos : 0 < UNKNOWN_COOLDOWN_MS := by decide
      omega
    · rw [heq]
  · rw [heq] at h
    exact absurd h (by simp)

theorem exec_lastUnlock_cases (st : EngineState) (now : ℕ)
    (buf : DecisionBuffer) (uid : String) :
    (executeDecision st now buf).1.lastUnlockTime uid = st.lastUnlockTime uid ∨
    ((executeDecision st now buf).1.lastUnlockTime uid = now ∧
      ∃ e, (executeDecision st now buf).2 = some e ∧
        e.etype = EventType.unlock ∧ e.timestamp = now ∧
        ∃ u, e.matchedUser = some u ∧ rowUserId u = uid ∧
          st.lastUnlockTime uid + ACCEPTED_COOLDOWN_MS ≤ now) := by
  rcases executeDecision_spec st now buf with
    ⟨h1, hbt, user, hbc, hcd, heq⟩ | ⟨h1, hbt, hcd, heq⟩ | heq
  · by_cases huid : uid = rowUserId user
    · right
      subst huid
      have hpos : 0 < ACCEPTED_COOLDOWN_MS := by decide
      rw [heq]
      exact ⟨by simp, _, rfl, rfl, rfl, user, rfl, rfl, by omega⟩
    · left
      rw [heq]
      simp [huid]
  · left
    rw [heq]
  · left
    rw [heq]

theorem exec_lastReject_cases (st : EngineState) (now : ℕ)
    (buf : DecisionBuffer) :
    (executeDecision st now buf).1.lastUnknownRejectTime =
      st.lastUnknownRejectTime ∨
    ((executeDecision st now buf).1.lastUnknownRejectTime = now ∧
      ∃ e, (executeDecision st now buf).2 = some e ∧
        e.etype = EventType.deny ∧ e.timestamp = now ∧
        st.lastUnknownRejectTime + UNKNOWN_COOLDOWN_MS ≤ now) := by
  rcases executeDecision_spec st now buf with
    ⟨h1, hbt, user, hbc, hcd, heq⟩ | ⟨h1, hbt, hcd, heq⟩ | heq
  · left
    rw [heq]
  · right
    have hpos : 0 < UNKNOWN_COOLDOWN_MS := by decide
    rw [heq]
    exact ⟨rfl, _, rfl, rfl, rfl, by omega⟩
  · left
    rw [heq]

theorem exec_none_preserves (st : EngineState) (now : ℕ)
    (buf : DecisionBuffer)
    (h : (executeDecision st now buf).2 = Option.none) :
    (executeDecision st now buf).1.lastUnlockTime = st.lastUnlockTime ∧
    (executeDecision st now buf).1.lastUnknownRejectTime =
      st.lastUnknownRejectTime := by
  rcases executeDecision_spec st now buf with
    ⟨h1, hbt, user, hbc, hcd, heq⟩ | ⟨h1, hbt, hcd, heq⟩ | heq
  · rw [heq] at h
    exact absurd h (by simp)
  · rw [heq] at h
    exact absurd h (by simp)
  · rw [heq]
    exact ⟨rfl, rfl⟩

theorem exec_low_count (st : EngineState) (now : ℕ) (buf : DecisionBuffer)
    (h : buf.count < MIN_PERSISTENCE_FRAMES) :
    executeDecision st now buf =
      ({ st with decisionBuffer := buf }, Option.none) := by
  have h2 : ¬ MIN_PERSISTENCE_FRAMES ≤ buf.count := by omega
  simp [executeDecision, h2]

theorem exec_deny_emits (st : EngineState) (now : ℕ) (buf : DecisionBuffer)
    (h1 : MIN_PERSISTENCE_FRAMES ≤ buf.count) (h2 : buf.type = DType.deny)
    (h3 : UNKNOWN_COOLDOWN_MS ≤ now - st.lastUnknownRejectTime) :
    executeDecision st now buf =
      ({ st with
          decisionBuffer := { buf with count := 0 }
          lastUnknownRejectTime := now },
        some ⟨EventType.deny,
          (if buf.reason = "" then "Access denied" else buf.reason), now,
          buf.candidateUser⟩) := by
  simp [executeDecision, h1, h2, h3]

theorem exec_deny_coolfail (st : EngineState) (now : ℕ)
    (buf : DecisionBuffer) (h1 : MIN_PERSISTENCE_FRAMES ≤ buf.count)
    (h2 : buf.type = DType.deny)
    (h3 : ¬ UNKNOWN_COOLDOWN_MS ≤ now - st.lastUnknownRejectTime) :
    executeDecision st now buf =
      ({ st with decisionBuffer := buf }, Option.none) := by
  simp [executeDecision, h1, h2, h3]

theorem exec_unlock_coolfail (st : EngineState) (now : ℕ)
    (buf : DecisionBuffer) (user : RecognitionFaceRow)
    (h1 : MIN_PERSISTENCE_FRAMES ≤ buf.count)
    (h2 : buf.type = DType.unlock) (hc : buf.candidateUser = some user)
    (h3 : ¬ ACCEPTED_COOLDOWN_MS ≤ now - st.lastUnlockTime (rowUserId user)) :
    executeDecision st now buf =
      ({ st with decisionBuffer := buf }, Option.none) := by
  simp [executeDecision, h1, h2, hc, h3]

/-! ### Frame-level lemmas -/

theorem processFrame_nonempty (kn : List RecognitionFaceRow)
    (st : EngineState) (now : ℕ) (dets : List Detection) (h : dets ≠ []) :
    processFrame kn st now dets =
      executeDecision { st with lastFacesSeenTime := now } now
        (vote st.decisionBuffer (propose kn st now dets)) := by
  have hne : dets.isEmpty = false := by
    cases dets with
    | nil => exact absurd rfl h
    | cons a l => rfl
  unfold processFrame
  rw [hne]
  simp

theorem processFrame_empty (kn : List RecognitionFaceRow) (st : EngineState)
    (now : ℕ) :
    processFrame kn st now [] =
      (if DISAPPEAR_RESET_MS < now - st.lastFacesSeenTime then
        ({ st with decisionBuffer := ⟨DType.none, 0, Option.none, ""⟩ },
          Option.none)
      else (st, Option.none)) := rfl

theorem processFrame_empty_event (kn : List RecognitionFaceRow)
    (st : EngineState) (now : ℕ) :
    (processFrame kn st now []).2 = Option.none := by
  rw [processFrame_empty]
  split
  · rfl
  · rfl

theorem step_lastUnlock_cases (kn : List RecognitionFaceRow)
    (st : EngineState) (now : ℕ) (dets : List Detection) (uid : String) :
    (processFrame kn st now dets).1.lastUnlockTime uid =
      st.lastUnlockTime uid ∨
    ((processFrame kn st now dets).1.lastUnlockTime uid = now ∧
      ∃ e, (processFrame kn st now dets).2 = some e ∧
        e.etype = EventType.unlock ∧ e.timestamp = now ∧
        ∃ u, e.matchedUser = some u ∧ rowUserId u = uid ∧
          st.lastUnlockTime uid + ACCEPTED_COOLDOWN_MS ≤ now) := by
  cases dets with
  | nil =>
    left
    rw [processFrame_empty]
    split
    · rfl
    · rfl
  | cons d l =>
    rw [processFrame_nonempty kn st now (d :: l) (by simp)]
    exact exec_lastUnlock_cases _ now _ uid

theorem step_lastReject_cases (kn : List RecognitionFaceRow)
    (st : EngineState) (now : ℕ) (dets : List Detection) :
    (processFrame kn st now dets).1.lastUnknownRejectTime =
      st.lastUnknownRejectTime ∨
    ((processFrame kn st now dets).1.lastUnknownRejectTime = now ∧
      ∃ e, (processFrame kn st now dets).2 = some e ∧
        e.etype = EventType.deny ∧ e.timestamp = now ∧
        st.lastUnknownRejectTime + UNKNOWN_COOLDOWN_MS ≤ now) := by
  cases dets with
  | nil =>
    left
    rw [processFrame_empty]
    split
    · rfl
    · rfl
  | cons d l =>
    rw [processFrame_nonempty kn st now (d :: l) (by simp)]
    exact exec_lastReject_cases _ now _

theorem step_event_unlock (kn : List RecognitionFaceRow) (st : EngineState)
    (now : ℕ) (dets : List Detection) (e : AccessDecisionEvent)
    (h : (processFrame kn st now dets).2 = some e)
    (hu : e.etype = EventType.unlock) :
    e.timestamp = now ∧
    ∃ u, e.matchedUser = some u ∧
      st.lastUnlockTime (rowUserId u) + ACCEPTED_COOLDOWN_MS ≤ now ∧
      (processFrame kn st now dets).1.lastUnlockTime (rowUserId u) = now := by
  cases dets with
  | nil =>
    rw [processFrame_empty_event] at h
    exact absurd h (by simp)
  | cons d l =>
    rw [processFrame_nonempty kn st now (d :: l) (by simp)] at h ⊢
    rcases exec_unlock_char _ now _ e h hu with ⟨_, u, _, hmu, hts, hcd, hnew⟩
    exact ⟨hts, u, hmu, hcd, hnew⟩

theorem step_event_deny (kn : List RecognitionFaceRow) (st : EngineState)
    (now : ℕ) (dets : List Detection) (e : AccessDecisionEvent)
    (h : (processFrame kn st now dets).2 = some e)
    (hd : e.etype = EventType.deny) :
    e.timestamp = now ∧
    st.lastUnknownRejectTime + UNKNOWN_COOLDOWN_MS ≤ now ∧
    (processFrame kn st now dets).1.lastUnknownRejectTime = now := by
  cases dets with
  | nil =>
    rw [processFrame_empty_event] at h
    exact absurd h (by simp)
  | cons d l =>
    rw [processFrame_nonempty kn st now (d :: l) (by simp)] at h ⊢
    rcases exec_deny_char _ now _ e h hd with ⟨_, hts, _, hcd, hnew⟩
    exact ⟨hts, hcd, hnew⟩

theorem step_none_preserves (kn : List RecognitionFaceRow)
    (st : EngineState) (now : ℕ) (dets : List Detection)
    (h : (processFrame kn st now dets).2 = Option.none) :
    (processFrame kn st now dets).1.lastUnknownRejectTime =
      st.lastUnknownRejectTime ∧
    ∀ uid, (processFrame kn st now dets).1.lastUnlockTime uid =
      st.lastUnlockTime uid := by
  cases dets with
  | nil =>
    rw [processFrame_empty]
    split
    · exact ⟨rfl, fun uid => rfl⟩
    · exact ⟨rfl, fun uid => rfl⟩
  | cons d l =>
    rw [processFrame_nonempty kn st now (d :: l) (by simp)] at h ⊢
    rcases exec_none_preserves _ now _ h with ⟨hu, hr⟩
    exact ⟨hr, fun uid => by rw [hu]⟩

theorem step_event_none_low (kn : List RecognitionFaceRow)
    (st : EngineState) (now : ℕ) (dets : List Detection)
    (h : st.decisionBuffer.count + 2 ≤ MIN_PERSISTENCE_FRAMES) :
    (processFrame kn st now dets).2 = Option.none ∧
    (processFrame kn st now dets).1.decisionBuffer.count ≤
      st.decisionBuffer.count + 1 := by
  cases dets with
  | nil =>
    rw [processFrame_empty]
    split
    · exact ⟨rfl, Nat.zero_le _⟩
    · exact ⟨rfl, Nat.le_succ _⟩
  | cons d l =>
    rw [processFrame_nonempty kn st now (d :: l) (by simp)]
    have hcnt := vote_count_le st.decisionBuffer
      (propose kn st now (d :: l))
    have hlow : (vote st.decisionBuffer (propose kn st now (d :: l))).count <
        MIN_PERSISTENCE_FRAMES := by omega
    rw [exec_low_count _ now _ hlow]
    exact ⟨rfl, hcnt⟩

/-! ### Minimum-selection lemmas -/

theorem foldl_min_spec (xs : List (RecognitionFaceRow × ℚ)) :
    ∀ x : RecognitionFaceRow × ℚ,
      (xs.foldl (fun b y => if y.2 < b.2 then y else b) x ∈ x :: xs) ∧
      (xs.foldl (fun b y => if y.2 < b.2 then y else b) x).2 ≤ x.2 ∧
      ∀ y ∈ xs, (xs.foldl (fun b y => if y.2 < b.2 then y else b) x).2 ≤ y.2 := by
  induction xs with
  | nil =>
    intro x
    refine ⟨List.mem_cons_self x [], le_refl _, ?_⟩
    intro y hy
    exact absurd hy (List.not_mem_nil y)
  | cons z zs ih =>
    intro x
    simp only [List.foldl_cons]
    by_cases hz : z.2 < x.2
    · rw [if_pos hz]
      rcases ih z with ⟨hmem, hle, hall⟩
      refine ⟨?_, le_trans hle (le_of_lt hz), ?_⟩
      · rcases List.mem_cons.1 hmem with h1 | h1
        · rw [h1]
          exact List.mem_cons_of_mem x (List.mem_cons_self z zs)
        · exact List.mem_cons_of_mem x (List.mem_cons_of_mem z h1)
      · intro y hy
        rcases List.mem_cons.1 hy with h1 | h1
        · rw [h1]
          exact hle
        · exact hall y h1
    · rw [if_neg hz]
      rcases ih x with ⟨hmem, hle, hall⟩
      refine ⟨?_, hle, ?_⟩
      · rcases List.mem_cons.1 hmem with h1 | h1
        · rw [h1]
          exact List.mem_cons_self x (z :: zs)
        · exact List.mem_cons_of_mem x (List.mem_cons_of_mem z h1)
      · intro y hy
        rcases List.mem_cons.1 hy with h1 | h1
        · rw [h1]
          exact le_trans hle (le_of_not_lt hz)
        · exact hall y h1

theorem minByDistance_spec (l : List (RecognitionFaceRow × ℚ))
    (m : RecognitionFaceRow × ℚ) (h : minByDistance l = some m) :
    m ∈ l ∧ ∀ q ∈ l, m.2 ≤ q.2 := by
  cases l with
  | nil => exact absurd h (by simp [minByDistance])
  | cons x xs =>
    simp only [minByDistance] at h
    rw [Option.some_inj] at h
    rcases foldl_min_spec xs x with ⟨hmem, hle, hall⟩
    rw [h] at hmem hle hall
    refine ⟨hmem, ?_⟩
    intro q hq
    rcases List.mem_cons.1 hq with h1 | h1
    · rw [h1]
      exact hle
    · exact hall q h1

theorem mem_unlockCandidatesOf (kn : List RecognitionFaceRow)
    (dets : List Detection) (r : RecognitionFaceRow) (dist : ℚ)
    (h : (r, dist) ∈ unlockCandidatesOf kn dets) :
    isBannedRow r = false ∧ ∃ d ∈ dets, bestMatch kn d = some (r, dist) := by
  unfold unlockCandidatesOf at h
  rcases List.mem_filterMap.1 h with ⟨d, hd, hsome⟩
  cases hbm : bestMatch kn d with
  | none =>
    rw [hbm] at hsome
    exact absurd hsome (by simp)
  | some m =>
    rw [hbm] at hsome
    obtain ⟨mr, md⟩ := m
    by_cases hb : isBannedRow mr
    · simp [hb] at hsome
    · simp only [hb] at hsome
      simp at hsome
      rcases hsome with ⟨h1, h2⟩
      rw [← h1, ← h2]
      exact ⟨by simpa using hb, d, hd, hbm⟩


/-! ### Matcher characterization -/

theorem bestMatchStep_none (d : Detection) (k : RecognitionFaceRow) :
    bestMatchStep d Option.none k =
      if d k < MATCH_THRESHOLD then some (k, d k) else Option.none := by
  unfold bestMatchStep
  split
  · rfl
  · rfl

theorem bestMatchStep_some (d : Detection) (r0 : RecognitionFaceRow)
    (d0 : ℚ) (k : RecognitionFaceRow) :
    bestMatchStep d (some (r0, d0)) k =
      if d k < MATCH_THRESHOLD then
        (if d k < d0 then some (k, d k) else some (r0, d0))
      else some (r0, d0) := by
  unfold bestMatchStep
  split
  · rfl
  · rfl

theorem firstMinMatch_isSome (d : Detection) (kn : List RecognitionFaceRow) :
    (firstMinMatch d kn).isSome = true ↔ ∃ r ∈ kn, d r < MATCH_THRESHOLD := by
  induction kn with
  | nil => simp [firstMinMatch]
  | cons k ks ih =>
    simp only [firstMinMatch]
    by_cases hk : d k < MATCH_THRESHOLD
    · rw [if_pos hk]
      constructor
      · intro _
        exact ⟨k, List.mem_cons_self k ks, hk⟩
      · intro _
        cases hfm : firstMinMatch d ks with
        | none => rfl
        | some m =>
          obtain ⟨r2, ds⟩ := m
          by_cases hds : ds < d k
          · simp [hds]
          · simp [hds]
    · rw [if_neg hk, ih]
      constructor
      · rintro ⟨r, hr, hlt⟩
        exact ⟨r, List.mem_cons_of_mem k hr, hlt⟩
      · rintro ⟨r, hr, hlt⟩
        rcases List.mem_cons.1 hr with h1 | h1
        · rw [h1] at hlt
          exact absurd hlt hk
        · exact ⟨r, h1, hlt⟩

theorem firstMinMatch_spec (d : Detection) :
    ∀ (kn : List RecognitionFaceRow) (r : RecognitionFaceRow) (dist : ℚ),
    firstMinMatch d kn = some (r, dist) →
    r ∈ kn ∧ dist = d r ∧ dist < MATCH_THRESHOLD ∧
    (∀ q ∈ kn, d q < MATCH_THRESHOLD → dist ≤ d q) ∧
    ∃ l1 l2, kn = l1 ++ r :: l2 ∧
      ∀ q ∈ l1, d q < MATCH_THRESHOLD → dist < d q := by
  intro kn
  induction kn with
  | nil =>
    intro r dist h
    exact absurd h (by simp [firstMinMatch])
  | cons k ks ih =>
    intro r dist h
    simp only [firstMinMatch] at h
    by_cases hk : d k < MATCH_THRESHOLD
    · rw [if_pos hk] at h
      split at h
      · rename_i r2 ds hfm
        by_cases hds : ds < d k
        · rw [if_pos hds] at h
          rw [Option.some_inj, Prod.mk.injEq] at h
          obtain ⟨h1, h2⟩ := h
          rw [← h1, ← h2]
          obtain ⟨hmem, hdr, hthr, hmin, l1, l2, hsplit, hstrict⟩ :=
            ih r2 ds hfm
          refine ⟨List.mem_cons_of_mem k hmem, hdr, hthr, ?_,
            k :: l1, l2, by rw [hsplit, List.cons_append], ?_⟩
          · intro q hq hqthr
            rcases List.mem_cons.1 hq with h3 | h3
            · rw [h3]
              exact le_of_lt hds
            · exact hmin q h3 hqthr
          · intro q hq hqthr
            rcases List.mem_cons.1 hq with h3 | h3
            · rw [h3]
              exact hds
            · exact hstrict q h3 hqthr
        · rw [if_neg hds] at h
          rw [Option.some_inj, Prod.mk.injEq] at h
          obtain ⟨h1, h2⟩ := h
          rw [← h1, ← h2]
          obtain ⟨hmem, hdr, hthr, hmin, _⟩ := ih r2 ds hfm
          refine ⟨List.mem_cons_self k ks, rfl, hk, ?_, [], ks, rfl, ?_⟩
          · intro q hq hqthr
            rcases List.mem_cons.1 hq with h3 | h3
            · rw [h3]
            · have hdsq := hmin q h3 hqthr
              have hkds : d k ≤ ds := le_of_not_lt hds
              exact le_trans hkds hdsq
          · intro q hq
            exact absurd hq (List.not_mem_nil q)
      · rename_i hfm
        rw [Option.some_inj, Prod.mk.injEq] at h
        obtain ⟨h1, h2⟩ := h
        rw [← h1, ← h2]
        have hnone : ¬ ∃ q ∈ ks, d q < MATCH_THRESHOLD := by
          rw [← firstMinMatch_isSome]
          simp [hfm]
        refine ⟨List.mem_cons_self k ks, rfl, hk, ?_, [], ks, rfl, ?_⟩
        · intro q hq hqthr
          rcases List.mem_cons.1 hq with h3 | h3
          · rw [h3]
          · exact absurd ⟨q, h3, hqthr⟩ hnone
        · intro q hq
          exact absurd hq (List.not_mem_nil q)
    · rw [if_neg hk] at h
      obtain ⟨hmem, hdr, hthr, hmin, l1, l2, hsplit, hstrict⟩ := ih r dist h
      refine ⟨List.mem_cons_of_mem k hmem, hdr, hthr, ?_,
        k :: l1, l2, by rw [hsplit, List.cons_append], ?_⟩
      · intro q hq hqthr
        rcases List.mem_cons.1 hq with h3 | h3
        · rw [h3] at hqthr
          exact absurd hqthr hk
        · exact hmin q h3 hqthr
      · intro q hq hqthr
        rcases List.mem_cons.1 hq with h3 | h3
        · rw [h3] at hqthr
          exact absurd hqthr hk
        · exact hstrict q h3 hqthr

theorem bestMatch_fold_acc (d : Detection) :
    ∀ (kn : List RecognitionFaceRow) (r0 : RecognitionFaceRow) (d0 : ℚ),
    kn.foldl (bestMatchStep d) (some (r0, d0)) =
      match firstMinMatch d kn with
      | some (r, ds) => if ds < d0 then some (r, ds) else some (r0, d0)
      | Option.none => some (r0, d0) := by
  intro kn
  induction kn with
  | nil =>
    intro r0 d0
    simp [firstMinMatch]
  | cons k ks ih =>
    intro r0 d0
    rw [List.foldl_cons, bestMatchStep_some]
    simp only [firstMinMatch]
    by_cases hk : d k < MATCH_THRESHOLD
    · rw [if_pos hk, if_pos hk]
      by_cases hkd : d k < d0
      · rw [if_pos hkd, ih k (d k)]
        cases hfm : firstMinMatch d ks with
        | none => simp [hkd]
        | some m =>
          obtain ⟨r2, ds⟩ := m
          by_cases hds : ds < d k
          · have hlt : ds < d0 := lt_trans hds hkd
            simp [hds, hlt]
          · simp [hds, hkd]
      · rw [if_neg hkd, ih r0 d0]
        cases hfm : firstMinMatch d ks with
        | none => simp [hkd]
        | some m =>
          obtain ⟨r2, ds⟩ := m
          by_cases hds : ds < d k
          · simp [hds]
          · have hnot : ¬ ds < d0 := by
              have h1 : d k ≤ ds := le_of_not_lt hds
              have h2 : d0 ≤ d k := le_of_not_lt hkd
              exact not_lt.2 (le_trans h2 h1)
            simp [hds, hkd, hnot]
    · rw [if_neg hk, if_neg hk, ih r0 d0]

theorem bestMatch_eq_firstMinMatch (kn : List RecognitionFaceRow)
    (d : Detection) : bestMatch kn d = firstMinMatch d kn := by
  induction kn with
  | nil => rfl
  | cons k ks ih =>
    unfold bestMatch
    rw [List.foldl_cons, bestMatchStep_none]
    simp only [firstMinMatch]
    by_cases hk : d k < MATCH_THRESHOLD
    · rw [if_pos hk, if_pos hk, bestMatch_fold_acc d ks k (d k)]
    · rw [if_neg hk, if_neg hk]
      exact ih

/-! ### Proposal lemmas -/

theorem propose_unlock_spec (kn : List RecognitionFaceRow)
    (st : EngineState) (now : ℕ) (dets : List Detection) :
    (propose kn st now dets).decision = DType.unlock →
    ((classify kn dets).all (fun f => f.mtch.isSome) = true) ∧
    ∃ best : RecognitionFaceRow × ℚ,
      (propose kn st now dets).candidate = some best.1 ∧
      best ∈ unlockCandidatesOf kn dets ∧
      ∀ q ∈ unlockCandidatesOf kn dets, best.2 ≤ q.2 := by
  simp only [propose]
  split
  · split
    · intro h
      exact absurd h (by simp)
    · intro h
      exact absurd h (by simp [noneProposal])
  · split
    · split
      · intro h
        exact absurd h (by simp)
      · intro h
        exact absurd h (by simp [noneProposal])
    · split
      · split
        · intro h
          exact absurd h (by simp)
        · intro h
          exact absurd h (by simp [noneProposal])
      · split
        · rename_i hcond
          split
          · rename_i best hbest
            split
            · intro _
              rcases minByDistance_spec _ best hbest with ⟨hmem, hmin⟩
              exact ⟨hcond.1, best, rfl, hmem, hmin⟩
            · intro h
              exact absurd h (by simp [noneProposal])
          · intro h
            exact absurd h (by simp)
        · split
          · rename_i hnot4 hcond
            split
            · rename_i best hbest
              split
              · intro _
                have hlen : (unlockCandidatesOf kn dets).length ≤ 1 := by
                  have hfm := List.length_filterMap_le
                    (fun d => match bestMatch kn d with
                      | some (r, dist) =>
                        if isBannedRow r then Option.none else some (r, dist)
                      | Option.none => Option.none) dets
                  have hlen1 : dets.length = 1 := hcond.2
                  unfold unlockCandidatesOf
                  omega
                have hsingle : unlockCandidatesOf kn dets = [best] := by
                  cases hl : unlockCandidatesOf kn dets with
                  | nil =>
                    rw [hl] at hbest
                    exact absurd hbest (by simp)
                  | cons a l2 =>
                    rw [hl] at hbest
                    simp at hbest
                    rw [hl] at hlen
                    simp at hlen
                    rw [hbest, hlen]
                refine ⟨hcond.1, best, rfl, ?_, ?_⟩
                · rw [hsingle]
                  simp
                · intro q hq
                  rw [hsingle] at hq
                  simp at hq
                  rw [hq]
              · intro h
                exact absurd h (by simp [noneProposal])
            · intro h
              exact absurd h (by simp)
          · intro h
            exact absurd h (by simp [noneProposal])

theorem propose_unlock_allKnown (kn : List RecognitionFaceRow)
    (st : EngineState) (now : ℕ) (dets : List Detection)
    (h : (propose kn st now dets).decision = DType.unlock) :
    (classify kn dets).all (fun f => f.mtch.isSome) = true :=
  (propose_unlock_spec kn st now dets h).1

theorem emitted_unlock_proposal (kn : List RecognitionFaceRow)
    (st : EngineState) (now : ℕ) (dets : List Detection)
    (e : AccessDecisionEvent)
    (h : (processFrame kn st now dets).2 = some e)
    (hu : e.etype = EventType.unlock) :
    (propose kn st now dets).decision = DType.unlock := by
  cases dets with
  | nil =>
    rw [processFrame_empty_event] at h
    exact absurd h (by simp)
  | cons d l =>
    rw [processFrame_nonempty kn st now (d :: l) (by simp)] at h
    have hbt := (exec_unlock_char _ now _ e h hu).1
    rw [vote_type] at hbt
    exact hbt

theorem emitted_unlock_candidate (kn : List RecognitionFaceRow)
    (st : EngineState) (now : ℕ) (dets : List Detection)
    (e : AccessDecisionEvent)
    (h : (processFrame kn st now dets).2 = some e)
    (hu : e.etype = EventType.unlock) :
    ∃ user, e.matchedUser = some user ∧
      (propose kn st now dets).candidate = some user := by
  cases dets with
  | nil =>
    rw [processFrame_empty_event] at h
    exact absurd h (by simp)
  | cons d l =>
    rw [processFrame_nonempty kn st now (d :: l) (by simp)] at h
    rcases exec_unlock_char _ now _ e h hu with ⟨hbt, user, hbc, hmu, _⟩
    have hp : (propose kn st now (d :: l)).decision = DType.unlock := by
      rw [vote_type] at hbt
      exact hbt
    rw [vote_candidate_unlock st.decisionBuffer _ hp] at hbc
    exact ⟨user, hmu, hbc⟩

theorem propose_unlock_candidate_min (kn : List RecognitionFaceRow)
    (st : EngineState) (now : ℕ) (dets : List Detection)
    (user : RecognitionFaceRow)
    (hc : (propose kn st now dets).candidate = some user)
    (hd : (propose kn st now dets).decision = DType.unlock) :
    ∃ dist, (user, dist) ∈ unlockCandidatesOf kn dets ∧
      ∀ q ∈ unlockCandidatesOf kn dets, dist ≤ q.2 := by
  rcases (propose_unlock_spec kn st now dets hd).2 with ⟨best, hcb, hmem, hmin⟩
  rw [hc] at hcb
  have hbu : best.1 = user := (Option.some_inj.1 hcb).symm
  refine ⟨best.2, ?_, hmin⟩
  rw [← hbu]
  simpa using hmem

/-! ### Run-level lemmas -/

theorem runEvents_nil (kn : List RecognitionFaceRow) (st : EngineState) :
    runEvents kn st [] = [] := rfl

theorem runEvents_cons (kn : List RecognitionFaceRow) (st : EngineState)
    (f : Frame) (fs : List Frame) :
    runEvents kn st (f :: fs) =
      (processFrame kn st f.now f.dets).2.toList ++
        runEvents kn (processFrame kn st f.now f.dets).1 fs := rfl

theorem unlockStamp_some (uid : String) (e : AccessDecisionEvent) (t : ℕ)
    (h : unlockStamp uid e = some t) :
    e.etype = EventType.unlock ∧ t = e.timestamp ∧
    ∃ u, e.matchedUser = some u ∧ rowUserId u = uid := by
  obtain ⟨et, rsn, ts, mu⟩ := e
  cases et with
  | unlock =>
    cases mu with
    | some u =>
      simp only [unlockStamp] at h
      by_cases huid : rowUserId u = uid
      · rw [if_pos huid] at h
        rw [Option.some_inj] at h
        exact ⟨rfl, h.symm, u, rfl, huid⟩
      · rw [if_neg huid] at h
        exact absurd h (by simp)
    | none => exact absurd h (by simp [unlockStamp])
  | deny => exact absurd h (by simp [unlockStamp])

theorem denyStamp_some (e : AccessDecisionEvent) (t : ℕ)
    (h : denyStamp e = some t) :
    e.etype = EventType.deny ∧ t = e.timestamp := by
  unfold denyStamp at h
  by_cases hd : e.etype = EventType.deny
  · rw [if_pos hd] at h
    rw [Option.some_inj] at h
    exact ⟨hd, h.symm⟩
  · rw [if_neg hd] at h
    exact absurd h (by simp)

theorem mem_filterMap_toList {α β : Type} (g : α → Option β)
    (o : Option α) (b : β) (h : b ∈ o.toList.filterMap g) :
    ∃ a, o = some a ∧ g a = some b := by
  cases o with
  | none => simp at h
  | some a =>
    simp only [Option.toList_some, List.filterMap_cons, List.filterMap_nil]
      at h
    cases hg : g a with
    | none => rw [hg] at h; simp at h
    | some b2 =>
      rw [hg] at h
      simp at h
      exact ⟨a, rfl, by rw [hg, h]⟩

theorem run_unlock_ge (kn : List RecognitionFaceRow) (uid : String)
    (fs : List Frame) :
    ∀ st t, t ∈ unlockTimesFor uid (runEvents kn st fs) →
      st.lastUnlockTime uid + ACCEPTED_COOLDOWN_MS ≤ t := by
  induction fs with
  | nil =>
    intro st t ht
    simp [runEvents_nil, unlockTimesFor] at ht
  | cons f fs ih =>
    intro st t ht
    rw [runEvents_cons] at ht
    unfold unlockTimesFor at ht
    rw [List.filterMap_append] at ht
    rcases List.mem_append.1 ht with h1 | h2
    · rcases mem_filterMap_toList _ _ _ h1 with ⟨e, hev, hst⟩
      rcases unlockStamp_some uid e t hst with ⟨hu, hts, u, hmu, huid⟩
      rcases step_event_unlock kn st f.now f.dets e hev hu with
        ⟨hts2, u2, hmu2, hcd, _⟩
      have hu2 : u2 = u := by
        rw [hmu] at hmu2
        exact (Option.some_inj.1 hmu2).symm
      rw [hu2, huid] at hcd
      omega
    · have hb := ih (processFrame kn st f.now f.dets).1 t h2
      rcases step_lastUnlock_cases kn st f.now f.dets uid with
        hsame | ⟨hnow, e, hev, hu, hts, u, hmu, huid, hcd⟩
      · rw [hsame] at hb
        exact hb
      · rw [hnow] at hb
        omega

theorem run_unlock_pairwise (kn : List RecognitionFaceRow) (uid : String)
    (fs : List Frame) :
    ∀ st, (unlockTimesFor uid (runEvents kn st fs)).Pairwise
      (fun a b => a + ACCEPTED_COOLDOWN_MS ≤ b) := by
  induction fs with
  | nil =>
    intro st
    simp [runEvents_nil, unlockTimesFor]
  | cons f fs ih =>
    intro st
    rw [runEvents_cons]
    unfold unlockTimesFor
    rw [List.filterMap_append, List.pairwise_append]
    refine ⟨?_, ih _, ?_⟩
    · cases hev : (processFrame kn st f.now f.dets).2 with
      | none => simp
      | some e =>
        cases hst : unlockStamp uid e with
        | none => simp [hst]
        | some t => simp [hst]
    · intro a ha b hb
      rcases mem_filterMap_toList _ _ _ ha with ⟨e, hev, hst⟩
      rcases unlockStamp_some uid e a hst with ⟨hu, hts, u, hmu, huid⟩
      rcases step_event_unlock kn st f.now f.dets e hev hu with
        ⟨hts2, u2, hmu2, hcd, hnew⟩
      have hu2 : u2 = u := by
        rw [hmu] at hmu2
        exact (Option.some_inj.1 hmu2).symm
      have hbge := run_unlock_ge kn uid fs (processFrame kn st f.now f.dets).1
        b hb
      rw [hu2, huid] at hnew
      rw [hnew] at hbge
      omega

theorem run_deny_ge (kn : List RecognitionFaceRow) (fs : List Frame) :
    ∀ st t, t ∈ denyTimes (runEvents kn st fs) →
      st.lastUnknownRejectTime + UNKNOWN_COOLDOWN_MS ≤ t := by
  induction fs with
  | nil =>
    intro st t ht
    simp [runEvents_nil, denyTimes] at ht
  | cons f fs ih =>
    intro st t ht
    rw [runEvents_cons] at ht
    unfold denyTimes at ht
    rw [List.filterMap_append] at ht
    rcases List.mem_append.1 ht with h1 | h2
    · rcases mem_filterMap_toList _ _ _ h1 with ⟨e, hev, hst⟩
      rcases denyStamp_some e t hst with ⟨hd, hts⟩
      rcases step_event_deny kn st f.now f.dets e hev hd with ⟨hts2, hcd, _⟩
      omega
    · have hb := ih (processFrame kn st f.now f.dets).1 t h2
      rcases step_lastReject_cases kn st f.now f.dets with
        hsame | ⟨hnow, e, hev, hd, hts, hcd⟩
      · rw [hsame] at hb
        exact hb
      · rw [hnow] at hb
        omega

theorem run_deny_pairwise (kn : List RecognitionFaceRow) (fs : List Frame) :
    ∀ st, (denyTimes (runEvents kn st fs)).Pairwise
      (fun a b => a + UNKNOWN_COOLDOWN_MS ≤ b) := by
  induction fs with
  | nil =>
    intro st
    simp [runEvents_nil, denyTimes]
  | cons f fs ih =>
    intro st
    rw [runEvents_cons]
    unfold denyTimes
    rw [List.filterMap_append, List.pairwise_append]
    refine ⟨?_, ih _, ?_⟩
    · cases hev : (processFrame kn st f.now f.dets).2 with
      | none => simp
      | some e =>
        cases hst : denyStamp e with
        | none => simp [hst]
        | some t => simp [hst]
    · intro a ha b hb
      rcases mem_filterMap_toList _ _ _ ha with ⟨e, hev, hst⟩
      rcases denyStamp_some e a hst with ⟨hd, hts⟩
      rcases step_event_deny kn st f.now f.dets e hev hd with
        ⟨hts2, hcd, hnew⟩
      have hbge := run_deny_ge kn fs (processFrame kn st f.now f.dets).1 b hb
      rw [hnew] at hbge
      omega

/-! ### Claims -/

theorem propose_mixed (kn : List RecognitionFaceRow) (st : EngineState)
    (now : ℕ) (dets : List Detection)
    (hK : (classify kn dets).any (fun f => f.mtch.isSome) = true)
    (hU : (classify kn dets).any (fun f => f.mtch.isNone) = true) :
    (propose kn st now dets).decision = DType.deny ∨
    (propose kn st now dets).decision = DType.none := by
  simp only [propose]
  rw [if_pos ⟨hK, hU⟩]
  split
  · left
    rfl
  · right
    rfl

/-- Claim C1: whenever a frame's classification contains at least one known and
at least one unknown face, that frame's proposal is deny or none and no
unlock command can be emitted on it; moreover an unlock command is emitted
on a frame only when that same frame's proposal is unlock, which forces
every face in the frame to be known. -/
theorem claim1_mixed_presence_never_unlocks :
    (∀ (kn : List RecognitionFaceRow) (st : EngineState) (now : ℕ)
      (dets : List Detection),
      (classify kn dets).any (fun f => f.mtch.isSome) = true →
      (classify kn dets).any (fun f => f.mtch.isNone) = true →
      ((propose kn st now dets).decision = DType.deny ∨
        (propose kn st now dets).decision = DType.none) ∧
      ∀ e, (processFrame kn st now dets).2 = some e →
        e.etype ≠ EventType.unlock) ∧
    (∀ (kn : List RecognitionFaceRow) (st : EngineState) (now : ℕ)
      (dets : List Detection) (e : AccessDecisionEvent),
      (processFrame kn st now dets).2 = some e →
      e.etype = EventType.unlock →
      (propose kn st now dets).decision = DType.unlock ∧
      (classify kn dets).all (fun f => f.mtch.isSome) = true) := by
  constructor
  · intro kn st now dets hK hU
    refine ⟨propose_mixed kn st now dets hK hU, ?_⟩
    intro e hev hu
    have hp := emitted_unlock_proposal kn st now dets e hev hu
    rcases propose_mixed kn st now dets hK hU with h | h
    · rw [hp] at h
      exact absurd h (by simp)
    · rw [hp] at h
      exact absurd h (by simp)
  · intro kn st now dets e hev hu
    have hp := emitted_unlock_proposal kn st now dets e hev hu
    exact ⟨hp, propose_unlock_allKnown kn st now dets hp⟩

/-- Witness for C1 at a concrete mixed frame: one detection matching
Alice's enrolled row, one far from every row. -/
theorem claim1_witness :
    (propose [aliceRow] (initState 0) 20000 [dAlice, dUnknown]).decision =
      DType.deny ∨
    (propose [aliceRow] (initState 0) 20000 [dAlice, dUnknown]).decision =
      DType.none :=
  (claim1_mixed_presence_never_unlocks.1 [aliceRow] (initState 0) 20000
    [dAlice, dUnknown] (by decide) (by decide)).1

/-- Claim C2 counterexample: the engine emits two unlock commands for the same
identity 10 002 ms apart, which is less than the 15 s window the claim
asserts (the accepted cooldown constant is 10 000 ms, not 15 000 ms). -/
theorem claim2_counterexample :
    unlockTimesFor "u1" (runEvents [aliceRow] (initState 0)
      [⟨20000, [dAlice]⟩, ⟨20001, [dAlice]⟩, ⟨20002, [dAlice]⟩,
        ⟨30002, [dAlice]⟩, ⟨30003, [dAlice]⟩, ⟨30004, [dAlice]⟩]) =
      [20002, 30004] ∧ 30004 - 20002 < 15000 := by
  constructor
  · decide
  · decide

/-- Claim C2 (amended to the code's 10 s constant): for every identity and every
frame sequence, consecutive unlock emissions credited to that identity are
at least `ACCEPTED_COOLDOWN_MS = 10000` ms apart, as recorded by the
per-identity last-unlock timestamp written at each emission. -/
theorem claim2_unlock_cooldown_10s :
    ACCEPTED_COOLDOWN_MS = 10000 ∧
    ∀ (kn : List RecognitionFaceRow) (st : EngineState) (uid : String)
      (fs : List Frame),
      (unlockTimesFor uid (runEvents kn st fs)).Pairwise
        (fun a b => a + ACCEPTED_COOLDOWN_MS ≤ b) :=
  ⟨rfl, fun kn st uid fs => run_unlock_pairwise kn uid fs st⟩

/-- Claim C3 counterexample: two engine states that differ only in the
last-denial timestamp produce different proposals on the very same frame
(a single unknown face at `now = 6000`), so cooldown eligibility is
consulted at proposal time, refuting the claim that it is evaluated only
at the moment of action. -/
theorem claim3_counterexample :
    (propose [] ⟨fun _ => 0, 5000, 0, ⟨DType.none, 0, Option.none, ""⟩⟩
      6000 [dUnknown]).decision = DType.none ∧
    (propose [] ⟨fun _ => 0, 0, 0, ⟨DType.none, 0, Option.none, ""⟩⟩
      6000 [dUnknown]).decision = DType.deny := by
  constructor
  · decide
  · decide

/-- Claim C3 (amended): when the voted buffer has reached the persistence
threshold but the action-gate cooldown fails, no command is emitted and
the buffer (count included) is kept as voted; on a later frame whose
proposal matches a buffer that already carries the threshold count, a deny
is emitted immediately once its cooldown clears, with no re-accumulation.
The gate-fail situation is reachable only through banned-group denials,
because unlock and unknown-face proposals also check their cooldown at
proposal time (see the counterexample). -/
theorem claim3_cooldown_gate :
    ∀ (kn : List RecognitionFaceRow) (st : EngineState) (now : ℕ)
      (dets : List Detection),
      dets ≠ [] →
      (MIN_PERSISTENCE_FRAMES ≤ (votedBuffer kn st now dets).count →
        (votedBuffer kn st now dets).type = DType.deny →
        ¬ UNKNOWN_COOLDOWN_MS ≤ now - st.lastUnknownRejectTime →
        processFrame kn st now dets =
          ({ st with
              lastFacesSeenTime := now
              decisionBuffer := votedBuffer kn st now dets },
            Option.none)) ∧
      (∀ user, MIN_PERSISTENCE_FRAMES ≤ (votedBuffer kn st now dets).count →
        (votedBuffer kn st now dets).type = DType.unlock →
        (votedBuffer kn st now dets).candidateUser = some user →
        ¬ ACCEPTED_COOLDOWN_MS ≤ now - st.lastUnlockTime (rowUserId user) →
        processFrame kn st now dets =
          ({ st with
              lastFacesSeenTime := now
              decisionBuffer := votedBuffer kn st now dets },
            Option.none)) ∧
      (MIN_PERSISTENCE_FRAMES ≤ st.decisionBuffer.count →
        (propose kn st now dets).decision = st.decisionBuffer.type →
        (propose kn st now dets).decision = DType.deny →
        UNKNOWN_COOLDOWN_MS ≤ now - st.lastUnknownRejectTime →
        ∃ e, (processFrame kn st now dets).2 = some e ∧
          e.etype = EventType.deny ∧ e.timestamp = now) := by
  intro kn st now dets hne
  refine ⟨?_, ?_, ?_⟩
  · intro h1 h2 h3
    rw [processFrame_nonempty kn st now dets hne]
    exact exec_deny_coolfail _ now _ h1 h2 h3
  · intro user h1 h2 hc h3
    rw [processFrame_nonempty kn st now dets hne]
    exact exec_unlock_coolfail _ now _ user h1 h2 hc h3
  · intro hcnt hsame hdeny hcd
    rw [processFrame_nonempty kn st now dets hne]
    have hnn : (propose kn st now dets).decision ≠ DType.none := by
      rw [hdeny]
      simp
    have hvc := vote_count_same st.decisionBuffer (propose kn st now dets)
      hsame hnn
    have hvt := vote_type st.decisionBuffer (propose kn st now dets)
    rw [hdeny] at hvt
    have hge : MIN_PERSISTENCE_FRAMES ≤
        (vote st.decisionBuffer (propose kn st now dets)).count := by
      omega
    rw [exec_deny_emits { st with lastFacesSeenTime := now } now _ hge hvt hcd]
    exact ⟨_, rfl, rfl, rfl⟩

/-- Witness for C3 at a concrete banned-denial gate failure: Bob is
enrolled but banned, a deny for him was emitted at 6002, and at 6005 the
voted count reaches the threshold while the denial cooldown is still
active — no command, buffer kept as voted. -/
theorem claim3_witness :
    processFrame [bobRow]
      ⟨fun _ => 0, 6002, 6002,
        ⟨DType.deny, 2, some bobRow, "Access denied (Banned)"⟩⟩
      6005 [dBob] =
      ({ (⟨fun _ => 0, 6002, 6002,
          ⟨DType.deny, 2, some bobRow, "Access denied (Banned)"⟩⟩ :
            EngineState) with
          lastFacesSeenTime := 6005
          decisionBuffer := votedBuffer [bobRow]
            ⟨fun _ => 0, 6002, 6002,
              ⟨DType.deny, 2, some bobRow, "Access denied (Banned)"⟩⟩
            6005 [dBob] },
        Option.none) :=
  (claim3_cooldown_gate [bobRow]
    ⟨fun _ => 0, 6002, 6002,
      ⟨DType.deny, 2, some bobRow, "Access denied (Banned)"⟩⟩
    6005 [dBob] (List.cons_ne_nil dBob [])).1
    (by decide) (by decide) (by decide)

/-- Claim C4: a command is emitted on a frame only once the voted buffer's count
has reached `MIN_PERSISTENCE_FRAMES = 3`; the count increments exactly on
a frame proposing the same non-none type as the buffer, resets to 1
otherwise, and a frame whose proposal differs from the buffered type can
emit nothing. -/
theorem claim4_persistence_threshold :
    ∀ (kn : List RecognitionFaceRow) (st : EngineState) (now : ℕ)
      (dets : List Detection),
      (∀ e, (processFrame kn st now dets).2 = some e →
        MIN_PERSISTENCE_FRAMES ≤ (votedBuffer kn st now dets).count) ∧
      ((propose kn st now dets).decision = st.decisionBuffer.type ∧
        (propose kn st now dets).decision ≠ DType.none →
        (votedBuffer kn st now dets).count = st.decisionBuffer.count + 1) ∧
      (¬((propose kn st now dets).decision = st.decisionBuffer.type ∧
        (propose kn st now dets).decision ≠ DType.none) →
        (votedBuffer kn st now dets).count = 1) ∧
      ((propose kn st now dets).decision ≠ st.decisionBuffer.type →
        (processFrame kn st now dets).2 = Option.none) := by
  intro kn st now dets
  refine ⟨?_, ?_, ?_, ?_⟩
  · intro e hev
    cases dets with
    | nil =>
      rw [processFrame_empty_event] at hev
      exact absurd hev (by simp)
    | cons d l =>
      rw [processFrame_nonempty kn st now (d :: l) (by simp)] at hev
      exact exec_event_count _ now _ e hev
  · intro h
    exact vote_count_same st.decisionBuffer (propose kn st now dets) h.1 h.2
  · intro h
    exact vote_count_changed st.decisionBuffer (propose kn st now dets) h
  · intro h
    cases dets with
    | nil => exact processFrame_empty_event kn st now
    | cons d l =>
      rw [processFrame_nonempty kn st now (d :: l) (by simp)]
      have hc : (vote st.decisionBuffer (propose kn st now (d :: l))).count
          = 1 :=
        vote_count_changed st.decisionBuffer _ (fun hh => h hh.1)
      have hlt : (vote st.decisionBuffer (propose kn st now (d :: l))).count
          < MIN_PERSISTENCE_FRAMES := by
        rw [hc]
        decide
      rw [exec_low_count _ now _ hlt]

/-- Witness for C4: a second consecutive unlock-proposing frame increments
the buffered count from 1 to 2 and emits nothing. -/
theorem claim4_witness :
    (votedBuffer [aliceRow]
      ⟨fun _ => 0, 0, 20000, ⟨DType.unlock, 1, some aliceRow,
        "Face recognized"⟩⟩ 20001 [dAlice]).count = 1 + 1 :=
  (claim4_persistence_threshold [aliceRow]
    ⟨fun _ => 0, 0, 20000, ⟨DType.unlock, 1, some aliceRow,
      "Face recognized"⟩⟩ 20001 [dAlice]).2.1 ⟨by decide, by decide⟩

/-- Claim C5 counterexample: the engine processes face frames at 20000 and
20001 ms, then no frame at all until faces reappear at 26000 ms — a gap
well beyond the 2 s disappearance threshold with no faces-absent frame
processed in between — and the reappearance frame completes the old vote
and emits an unlock immediately, so the persistence count does carry over
such a gap. -/
theorem claim5_counterexample :
    20001 + DISAPPEAR_RESET_MS < 26000 ∧
    runEvents [aliceRow] (initState 0)
      [⟨20000, [dAlice]⟩, ⟨20001, [dAlice]⟩, ⟨26000, [dAlice]⟩] =
      [⟨EventType.unlock, "Face recognized", 26000, some aliceRow⟩] := by
  constructor
  · decide
  · decide

/-- Claim C5 (amended): the buffer is cleared to `{none, 0}` exactly when a
faces-absent frame is processed more than `DISAPPEAR_RESET_MS = 2000` ms
after faces were last seen; from that cleared state no command can be
emitted within the next two frames, whatever they contain, so a full
fresh 3-frame vote is required.  (When no faces-absent frame is processed
during the gap, the count carries over — see the counterexample.) -/
theorem claim5_disappear_reset :
    ∀ (kn : List RecognitionFaceRow) (st : EngineState) (now : ℕ),
      st.lastFacesSeenTime + DISAPPEAR_RESET_MS < now →
      processFrame kn st now [] =
        ({ st with decisionBuffer := ⟨DType.none, 0, Option.none, ""⟩ },
          Option.none) ∧
      ∀ f1 f2 : Frame,
        runEvents kn
          { st with decisionBuffer := ⟨DType.none, 0, Option.none, ""⟩ }
          [f1, f2] = [] := by
  intro kn st now h
  have hgt : DISAPPEAR_RESET_MS < now - st.lastFacesSeenTime := by omega
  constructor
  · rw [processFrame_empty, if_pos hgt]
  · intro f1 f2
    have hmin : MIN_PERSISTENCE_FRAMES = 3 := rfl
    obtain ⟨hev1, hcnt1⟩ := step_event_none_low kn
      { st with decisionBuffer := ⟨DType.none, 0, Option.none, ""⟩ }
      f1.now f1.dets (by simp [hmin])
    obtain ⟨hev2, _⟩ := step_event_none_low kn
      (processFrame kn
        { st with decisionBuffer := ⟨DType.none, 0, Option.none, ""⟩ }
        f1.now f1.dets).1
      f2.now f2.dets (by simp at hcnt1 ⊢; omega)
    rw [runEvents_cons, hev1, runEvents_cons, hev2, runEvents_nil]
    rfl

/-- Witness for C5: a faces-absent frame at 2001 ms, 2001 ms after mount,
clears the buffer and emits nothing. -/
theorem claim5_witness :
    processFrame [aliceRow] (initState 0) 2001 [] =
      ({ initState 0 with
          decisionBuffer := ⟨DType.none, 0, Option.none, ""⟩ },
        Option.none) :=
  (claim5_disappear_reset [aliceRow] (initState 0) 2001 (by decide)).1

/-- Claim C6: every emitted unlock command credits an eligible candidate — a
known, non-banned best match of some face of that frame — whose distance
is the global minimum among the frame's eligible candidates. -/
theorem claim6_unlock_credits_global_min :
    ∀ (kn : List RecognitionFaceRow) (st : EngineState) (now : ℕ)
      (dets : List Detection) (e : AccessDecisionEvent)
      (user : RecognitionFaceRow),
      (processFrame kn st now dets).2 = some e →
      e.etype = EventType.unlock →
      e.matchedUser = some user →
      ∃ dist, (user, dist) ∈ unlockCandidatesOf kn dets ∧
        isBannedRow user = false ∧ dist < MATCH_THRESHOLD ∧
        (∃ d ∈ dets, bestMatch kn d = some (user, dist)) ∧
        ∀ q ∈ unlockCandidatesOf kn dets, dist ≤ q.2 := by
  intro kn st now dets e user hev hu hmu
  rcases emitted_unlock_candidate kn st now dets e hev hu with ⟨u2, hmu2, hc⟩
  have huu : u2 = user := by
    rw [hmu] at hmu2
    exact (Option.some_inj.1 hmu2).symm
  rw [huu] at hc
  have hp := emitted_unlock_proposal kn st now dets e hev hu
  rcases propose_unlock_candidate_min kn st now dets user hc hp with
    ⟨dist, hmem, hmin⟩
  rcases mem_unlockCandidatesOf kn dets user dist hmem with ⟨hban, hex⟩
  rcases hex with ⟨dd, hdd, hbm⟩
  have hbm2 := hbm
  rw [bestMatch_eq_firstMinMatch] at hbm2
  obtain ⟨_, _, hthr, _, _⟩ := firstMinMatch_spec dd kn user dist hbm2
  exact ⟨dist, hmem, hban, hthr, ⟨dd, hdd, hbm⟩, hmin⟩

/-- Witness for C6: two known, non-banned identities visible at once; the
emitted unlock credits Alice, whose distance 0.2 beats Carol's 0.35. -/
theorem claim6_witness :
    ∃ dist,
      (aliceRow, dist) ∈
        unlockCandidatesOf [aliceRow, carolRow] [dAlice, dCarol] ∧
      isBannedRow aliceRow = false ∧ dist < MATCH_THRESHOLD ∧
      (∃ d ∈ [dAlice, dCarol],
        bestMatch [aliceRow, carolRow] d = some (aliceRow, dist)) ∧
      ∀ q ∈ unlockCandidatesOf [aliceRow, carolRow] [dAlice, dCarol],
        dist ≤ q.2 :=
  claim6_unlock_credits_global_min [aliceRow, carolRow]
    ⟨fun _ => 0, 0, 0,
      ⟨DType.unlock, 2, some aliceRow, "Recognized (Multi-face)"⟩⟩
    20000 [dAlice, dCarol]
    ⟨EventType.unlock, "Recognized (Multi-face)", 20000, some aliceRow⟩
    aliceRow (by decide) (by decide) (by decide)

/-- Claim C7 counterexample: two enrolled rows with equal qualifying distance;
the attached candidate is the one earlier in the enrolled list (id "b"),
not the one with the ascending-minimal enrollment id ("a"), refuting the
id-ascending tie-break. -/
theorem claim7_counterexample :
    dTie kbRow < MATCH_THRESHOLD ∧ dTie kaRow < MATCH_THRESHOLD ∧
    dTie kbRow = dTie kaRow ∧ kaRow.id < kbRow.id ∧
    (bestMatch [kbRow, kaRow] dTie).map (fun m => m.1.id) = some "b" := by
  refine ⟨by decide, by decide, by decide, ?_, by decide⟩
  rw [String.lt_iff_toList_lt]
  decide

/-- Claim C7 (amended): a face is known iff some enrolled row's distance is
strictly below `MATCH_THRESHOLD = 0.45`; the attached candidate carries
its own distance, qualifies, attains the minimum distance among all
qualifying rows, and is the earliest such row in the enrolled list —
ties are broken by list position (the fetch orders rows by `created_at`
descending), not by enrollment id. -/
theorem claim7_classifier :
    ∀ (kn : List RecognitionFaceRow) (d : Detection),
      ((bestMatch kn d).isSome = true ↔
        ∃ r ∈ kn, d r < MATCH_THRESHOLD) ∧
      ∀ r dist, bestMatch kn d = some (r, dist) →
        r ∈ kn ∧ dist = d r ∧ dist < MATCH_THRESHOLD ∧
        (∀ q ∈ kn, d q < MATCH_THRESHOLD → dist ≤ d q) ∧
        ∃ l1 l2, kn = l1 ++ r :: l2 ∧
          ∀ q ∈ l1, d q < MATCH_THRESHOLD → dist < d q := by
  intro kn d
  constructor
  · rw [bestMatch_eq_firstMinMatch]
    exact firstMinMatch_isSome d kn
  · intro r dist h
    rw [bestMatch_eq_firstMinMatch] at h
    exact firstMinMatch_spec d kn r dist h

/-- Witness for C7 at the concrete tied pair: the attached candidate is
`kbRow` at distance 0.2 and every earlier qualifier is strictly closer
(vacuously, as `kbRow` heads the list). -/
theorem claim7_witness :
    kbRow ∈ [kbRow, kaRow] ∧ mkRat 1 5 = dTie kbRow ∧
    mkRat 1 5 < MATCH_THRESHOLD ∧
    (∀ q ∈ [kbRow, kaRow], dTie q < MATCH_THRESHOLD → mkRat 1 5 ≤ dTie q) ∧
    ∃ l1 l2, [kbRow, kaRow] = l1 ++ kbRow :: l2 ∧
      ∀ q ∈ l1, dTie q < MATCH_THRESHOLD → mkRat 1 5 < dTie q :=
  (claim7_classifier [kbRow, kaRow] dTie).2 kbRow (mkRat 1 5) (by decide)

/-- Claim C8 counterexample: the server-side notifier, fed an accepted decision
with no `banned` field, publishes `result = "allowed"` — outside the
claimed value set — and omits the `banned` key. -/
theorem claim8_counterexample :
    (notifyMessage ⟨some VisitStatus.accepted, Option.none⟩).result =
      "allowed" ∧
    (notifyMessage ⟨some VisitStatus.accepted, Option.none⟩).result ≠
      "unlocked" ∧
    (notifyMessage ⟨some VisitStatus.accepted, Option.none⟩).result ≠
      "denied" ∧
    (notifyMessage ⟨some VisitStatus.accepted, Option.none⟩).result ≠
      "cooldown" ∧
    (notifyMessage ⟨some VisitStatus.accepted, Option.none⟩).banned =
      Option.none := by
  refine ⟨by decide, by decide, by decide, by decide, by decide⟩

/-- Claim C8 (amended): the recognition client's decision handler always
publishes `result ∈ {"unlocked", "denied"}` together with a boolean
`banned` (defaulting to false when the decision carried no identity),
while the server-side notifier publishes `result ∈ {"allowed", "denied"}`
and includes `banned` only when the caller supplied it. -/
theorem claim8_payload_fields :
    (∀ (et : EventType) (mu : Option RecognitionFaceRow),
      ((handleAccessMessage et mu).result = "unlocked" ∨
        (handleAccessMessage et mu).result = "denied") ∧
      ∃ b, (handleAccessMessage et mu).banned = some b) ∧
    ∀ p : NotifyPayload,
      (notifyMessage p).result = "allowed" ∨
      (notifyMessage p).result = "denied" := by
  constructor
  · intro et mu
    constructor
    · cases et with
      | unlock =>
        left
        rfl
      | deny =>
        right
        rfl
    · exact ⟨_, rfl⟩
  · intro p
    unfold notifyMessage
    by_cases hs : p.status = some VisitStatus.accepted
    · left
      simp [hs]
    · right
      simp [hs]

/-- Claim C9 counterexample: publishing on the disconnected client hands nothing
to the transport and surfaces no error to the caller — the failure is not
reported, refuting the claim that it is surfaced as a delivery failure. -/
theorem claim9_counterexample :
    (MqttClient.publish ⟨false⟩ "facebase/access" "unlock").2.1 = [] ∧
    (MqttClient.publish ⟨false⟩ "facebase/access" "unlock").2.2 =
      Option.none := by
  refine ⟨by decide, by decide⟩

/-- Claim C9 (amended): publishing while disconnected sends nothing and stores
nothing (the client state is unchanged, so the message is not queued), but
the call returns without signalling any failure to the caller; only a
console warning is logged. -/
theorem claim9_disconnected_publish :
    ∀ (st : MqttClientState) (topic msg : String),
      st.connected = false →
      MqttClient.publish st topic msg = (st, [], Option.none) := by
  intro st topic msg h
  simp [MqttClient.publish, h]

/-- Witness for C9 on the concrete disconnected client. -/
theorem claim9_witness :
    MqttClient.publish ⟨false⟩ "facebase/motion" "wake" =
      (⟨false⟩, [], Option.none) :=
  claim9_disconnected_publish ⟨false⟩ "facebase/motion" "wake" rfl

/-- Claim C10: all deny emissions share the single global denial timestamp:
consecutive deny emissions of any reason are at least
`UNKNOWN_COOLDOWN_MS = 6000` ms apart; every deny emission sets the global
timestamp to the frame time; frames that emit nothing (including every
faces-absent frame, hence the disappearance reset) leave both the
per-identity unlock timestamps and the global denial timestamp
unchanged. -/
theorem claim10_global_denial_cooldown :
    (∀ (kn : List RecognitionFaceRow) (st : EngineState) (fs : List Frame),
      (denyTimes (runEvents kn st fs)).Pairwise
        (fun a b => a + UNKNOWN_COOLDOWN_MS ≤ b)) ∧
    (∀ (kn : List RecognitionFaceRow) (st : EngineState) (now : ℕ)
      (dets : List Detection) (e : AccessDecisionEvent),
      (processFrame kn st now dets).2 = some e →
      e.etype = EventType.deny →
      (processFrame kn st now dets).1.lastUnknownRejectTime = now) ∧
    (∀ (kn : List RecognitionFaceRow) (st : EngineState) (now : ℕ)
      (dets : List Detection),
      (processFrame kn st now dets).2 = Option.none →
      (processFrame kn st now dets).1.lastUnknownRejectTime =
        st.lastUnknownRejectTime ∧
      ∀ uid, (processFrame kn st now dets).1.lastUnlockTime uid =
        st.lastUnlockTime uid) ∧
    ∀ (kn : List RecognitionFaceRow) (st : EngineState) (now : ℕ),
      (processFrame kn st now []).1.lastUnknownRejectTime =
        st.lastUnknownRejectTime ∧
      ∀ uid, (processFrame kn st now []).1.lastUnlockTime uid =
        st.lastUnlockTime uid := by
  refine ⟨fun kn st fs => run_deny_pairwise kn fs st, ?_, ?_, ?_⟩
  · intro kn st now dets e hev hd
    exact (step_event_deny kn st now dets e hev hd).2.2
  · intro kn st now dets hev
    exact step_none_preserves kn st now dets hev
  · intro kn st now
    exact step_none_preserves kn st now []
      (processFrame_empty_event kn st now)

/-- Witness for C10: a banned-reason deny emitted at 20000 ms sets the
same global denial timestamp that unknown-face denials use. -/
theorem claim10_witness :
    (processFrame [aliceRow]
      ⟨fun _ => 0, 0, 0,
        ⟨DType.deny, 2, Option.none, "Unknown face detected"⟩⟩
      20000 [dUnknown]).1.lastUnknownRejectTime = 20000 :=
  claim10_global_denial_cooldown.2.1 [aliceRow]
    ⟨fun _ => 0, 0, 0,
      ⟨DType.deny, 2, Option.none, "Unknown face detected"⟩⟩
    20000 [dUnknown]
    ⟨EventType.deny, "Unknown face detected", 20000, Option.none⟩
    (by decide) (by decide)

end Facebase
